import Mathlib

/-!
Verification development for the reprotest variation pipeline and build
orchestrator.  The Lean definitions below are shallow embeddings of the
Python sources:

* `src/reprotest/shell_syn.py` — the shell-glob sanitizer state machine;
* `src/reprotest/build.py` — the `Build` value, its functional-update
  helpers, the script emitter `to_script`, the variation transforms and the
  ordered registry `VARIATIONS`, and `TimeVariation.apply_dynamic_defaults`;
* `src/reprotest/__init__.py` — `BuildContext.plan_variations`,
  `BuildContext.run_build`'s script-rendering call, and `check_auto`.

Modelling conventions: Python strings are `String`; ordered dictionaries are
association lists; code that can raise returns `Except String`; ambient
effects (the random module, `getpass`/`grp`, the system clock, the presence
of tools on PATH, the file system walked by `os.walk`) are passed in as
explicit oracle parameters.  The semantics of the emitted build script and
of the setup/cleanup commands over an abstract file-system state are given
by small interpreters defined after the embeddings.
-/

namespace Reprotest

/-! ### `shlex.quote` (Python standard library, used by `build.py`)

`shlex.quote(s)` returns `s` unchanged when `s` is non-empty and contains
only characters from the safe set (ASCII word characters and at-sign,
percent, plus, equals, colon, comma, dot, slash, dash); otherwise it wraps
`s` in single quotes, escaping embedded single quotes. -/

def shlexSafeChar (c : Char) : Bool :=
  c.isAlphanum || c = '_' || c = '@' || c = '%' || c = '+' || c = '=' ||
  c = ':' || c = ',' || c = '.' || c = '/' || c = '-'

def sq : String := "\x27"

def shlex_quote (s : String) : String :=
  if s = "" then sq ++ sq
  else if s.data.all shlexSafeChar then s
  else sq ++ (s.data.map (fun c =>
    if c = '\x27' then sq ++ "\x22" ++ sq ++ "\x22" ++ sq else String.mk [c])).foldl
    (· ++ ·) "" ++ sq

/-! ### Path helpers (`build.py` `dirname`/`basename`, `os.path.join`)

`dirname`/`basename` in `build.py` first normalise away a trailing slash so
that they "work more intuitively for paths with a trailing /".  The model
below covers the well-formed absolute paths reprotest builds
(`/scratch/build-name/` and friends); full `os.path.normpath` resolution of
`.`/`..` segments is not needed by any claim. -/

/-- `s.startswith(p)`, computed on the character lists (the corresponding
`String` primitive does not reduce definitionally). -/
def strStartsWith (s p : String) : Bool :=
  p.data.isPrefixOf s.data

/-- `s.endswith(p)` on the character lists. -/
def strEndsWith (s p : String) : Bool :=
  p.data.reverse.isPrefixOf s.data.reverse

/-- `s[n:]` on the character lists. -/
def strDrop (s : String) (n : Nat) : String :=
  String.mk (s.data.drop n)

def stripTrailingSlashes (p : String) : String :=
  let r := (p.data.reverse.dropWhile (· = '/')).reverse
  if r = [] then String.mk (p.data.take 1) else String.mk r

def splitLastSlash (p : String) : String × String :=
  match (p.data.reverse.takeWhile (· ≠ '/')).reverse, (p.data.reverse.dropWhile (· ≠ '/')).reverse with
  | base, dir => (String.mk dir, String.mk base)

def dirname (p : String) : String :=
  let q := stripTrailingSlashes p
  stripTrailingSlashes (splitLastSlash q).1

def basename (p : String) : String :=
  (splitLastSlash (stripTrailingSlashes p)).2

def path_join (a b : String) : String :=
  if strStartsWith b "/" then b
  else if a = "" then b
  else if strEndsWith a "/" then a ++ b
  else a ++ "/" ++ b

/-! ### The shell-glob sanitizer (`shell_syn.sanitize_globs`) -/

/-- Special characters outside quotes: newline, tab, and the POSIX special
set, from `shell_syn.special_except_quotes`. -/
def special_except_quotes : List Char :=
  ['\n', '\t', '|', '&', ';', '<', '>', '(', ')', '$', '\x60']

/-- From `shell_syn.special_in_double_quotes`. -/
def special_in_double_quotes : List Char := ['$', '\x60']

/-- From `shell_syn.escaped_in_double_quotes`. -/
def escaped_in_double_quotes : List Char := ['$', '\x60', '\x22', '\x5c', '\n']

/-- The `in_quote` parser state (`False`, `"'"` or `'"'` in the Python). -/
inductive InQuote | no | single | double
deriving DecidableEq, Repr

/-- Mutable state of the `sanitize_globs` loop: accumulated words, the
current word (`None` or a string), `in_quote` and `escaped`. -/
structure SanState where
  words : List String
  cw : Option String
  in_quote : InQuote
  escaped : Bool
deriving DecidableEq, Repr

/-- `next_word()` from `sanitize_globs`. -/
def nextWord (st : SanState) : SanState :=
  match st.cw with
  | none => st
  | some w => { st with words := st.words ++ [w], cw := none }

/-- Append a character (or a string) onto the current word, as the
unconditional `cw = c if cw is None else cw + c` at the end of the loop. -/
def appendCw (st : SanState) (s : String) : SanState :=
  { st with cw := some ((st.cw.getD "") ++ s) }

/-- One iteration of the `for c in s` loop of `sanitize_globs`. -/
def san_step (st : SanState) (c : Char) : Except String SanState :=
  match st.in_quote with
  | .no =>
    if st.escaped then
      .ok (appendCw { st with escaped := false } (String.mk [c]))
    else if c ∈ special_except_quotes then
      .error "not a shell-glob pattern"
    else if c = '\x5c' then
      .ok (appendCw { st with escaped := true } (String.mk [c]))
    else if c = '\x27' then
      .ok (appendCw { st with in_quote := .single } (String.mk [c]))
    else if c = '\x22' then
      .ok (appendCw { st with in_quote := .double } (String.mk [c]))
    else if c = ' ' then
      -- `next_word()` followed by `continue`: the space is not appended
      .ok (nextWord st)
    else
      .ok (appendCw st (String.mk [c]))
  | .single =>
    if c = '\x27' then
      .ok (appendCw { st with in_quote := .no } (String.mk [c]))
    else
      .ok (appendCw st (String.mk [c]))
  | .double =>
    if st.escaped then
      if c ∈ escaped_in_double_quotes then
        .ok (appendCw { st with escaped := false } (String.mk [c]))
      else
        -- these characters retain the backslash, appended before `c`
        .ok (appendCw { st with escaped := false } (String.mk ['\x5c', c]))
    else if c ∈ special_in_double_quotes then
      .error "not a shell-glob pattern"
    else if c = '\x5c' then
      .ok (appendCw { st with escaped := true } (String.mk [c]))
    else if c = '\x22' then
      .ok (appendCw { st with in_quote := .no } (String.mk [c]))
    else
      .ok (appendCw st (String.mk [c]))

/-- Run the sanitizer loop over the remaining characters, stopping at the
first raised error. -/
def san_run (st : SanState) : List Char → Except String SanState
  | [] => .ok st
  | c :: cs =>
    match san_step st c with
    | .error e => .error e
    | .ok st' => san_run st' cs

/-- `shell_syn.sanitize_globs` with `join=False`: the sanitized list of
words.  `forcerel` prepends `./` to every word. -/
def sanitize_globs (s : String) (forcerel : Bool := true) :
    Except String (List String) := do
  let st ← san_run ⟨[], none, .no, false⟩ s.data
  if st.in_quote ≠ .no ∨ st.escaped then
    .error "unclosed escape or quote"
  else
    let words := (nextWord st).words
    .ok (if forcerel then words.map ("./" ++ ·) else words)

/-- `shell_syn.sanitize_globs` with `join=True` (the default): the words
joined by single spaces. -/
def sanitize_globs_join (s : String) (forcerel : Bool := true) :
    Except String String :=
  (sanitize_globs s forcerel).map (String.intercalate " ")

/-- Claim-side scanner for the sanitizer's accept/reject behaviour: scanning
with a quote-state and an escaped flag, reject on a special character
outside quotes and unescaped, on an unescaped `$` or backtick inside double
quotes, or when the input ends inside a quote or a backslash escape. -/
def claimRejects : InQuote → Bool → List Char → Bool
  | q, esc, [] => decide (q ≠ .no) || esc
  | .no, true, _ :: cs => claimRejects .no false cs
  | .no, false, c :: cs =>
    if c ∈ special_except_quotes then true
    else if c = '\x5c' then claimRejects .no true cs
    else if c = '\x27' then claimRejects .single false cs
    else if c = '\x22' then claimRejects .double false cs
    else claimRejects .no false cs
  | .single, esc, c :: cs =>
    if c = '\x27' then claimRejects .no esc cs else claimRejects .single esc cs
  | .double, true, _ :: cs => claimRejects .double false cs
  | .double, false, c :: cs =>
    if c ∈ special_in_double_quotes then true
    else if c = '\x5c' then claimRejects .double true cs
    else if c = '\x22' then claimRejects .no false cs
    else claimRejects .double false cs

/-! ### Shell command AST and the `Build` value (`build.py`)

Modelled from the spec: the `shell_syn.Command` / `AndList` / `List` classes
referenced by `build.py` are not under `src/` (the `shell_syn.py` there only
contains the sanitizer).  Per the spec, a `Command` is prefix words plus a
name and suffix words, an and-list is a `&&`-chain of commands, and the
cleanup list is a `;`-sequence whose every term carries the exit-code
catcher (rendered as `cmd || __c=$?` by `Build.prepend_cleanup`).  We embed
a command as either a word list (`Command.make`) or a wrapper prefix around
an inner command (`prepend_to_build_command`'s
`Command(cmd_prefix=..., cmd_suffix=...)`); and-lists and cleanup lists are
Lean lists of commands, the cleanup catcher being attached by the script
semantics. -/

inductive Command where
  | make (words : List String)
  | wrap (pre : List String) (inner : Command)
deriving DecidableEq, Repr

/-- Nesting depth of wrapper prefixes around the base command. -/
def Command.depth : Command → Nat
  | .make _ => 0
  | .wrap _ inner => inner.depth + 1

/-- The `Build` namedtuple of `build.py`.  `env` is an insertion-ordered
mapping modelled as an association list. -/
structure Build where
  build_command : Command
  setup : List Command
  cleanup : List Command
  env : List (String × String)
  tree : String
  aux_tree : String
deriving DecidableEq, Repr

/-- Update of an insertion-ordered mapping: replace in place when the key
exists, else append. -/
def envSet : List (String × String) → String → String → List (String × String)
  | [], k, v => [(k, v)]
  | (k', v') :: rest, k, v =>
    if k' = k then (k, v) :: rest else (k', v') :: envSet rest k v

/-- Lookup in the environment mapping (`build.env[key]` in Python raises
`KeyError` when absent; callers below surface that as `Except.error`). -/
def envGet : List (String × String) → String → Option String
  | [], _ => none
  | (k', v') :: rest, k => if k' = k then some v' else envGet rest k

/-- `del mapping[k]`: raises `KeyError` when the key is absent. -/
def envDel : List (String × String) → String → Except String (List (String × String))
  | [], k => .error ("KeyError: " ++ k)
  | (k', v') :: rest, k =>
    if k' = k then .ok rest
    else do .ok ((k', v') :: (← envDel rest k))

namespace Build

/-- `Build.add_env`. -/
def add_env (b : Build) (key value : String) : Build :=
  { b with env := envSet b.env key value }

/-- `Build.modify_env`: apply the additions, then delete the removed keys
(`del` raises on an absent key). -/
def modify_env (b : Build) (add : List (String × String)) (rem : List String) :
    Except String Build :=
  match rem.foldlM envDel (add.foldl (fun e kv => envSet e kv.1 kv.2) b.env) with
  | .error e => .error e
  | .ok afterRem => .ok { b with env := afterRem }

/-- `Build.prepend_to_build_command`: wrap the build command in a prefix of
`shlex.quote`d words. -/
def prepend_to_build_command (b : Build) (pre : List String) : Build :=
  { b with build_command := .wrap (pre.map shlex_quote) b.build_command }

/-- `Build.append_setup`. -/
def append_setup (b : Build) (c : Command) : Build :=
  { b with setup := b.setup ++ [c] }

/-- `Build.append_setup_exec_raw`. -/
def append_setup_exec_raw (b : Build) (args : List String) : Build :=
  b.append_setup (.make args)

/-- `Build.append_setup_exec`: quote each argument. -/
def append_setup_exec (b : Build) (args : List String) : Build :=
  b.append_setup_exec_raw (args.map shlex_quote)

/-- `Build.prepend_cleanup`: the command is stored at the head of the
cleanup list; its `|| __c=$?` exit-code catcher is part of the cleanup
semantics (`cleanupExit` below). -/
def prepend_cleanup (b : Build) (c : Command) : Build :=
  { b with cleanup := c :: b.cleanup }

/-- `Build.prepend_cleanup_exec_raw`. -/
def prepend_cleanup_exec_raw (b : Build) (args : List String) : Build :=
  b.prepend_cleanup (.make args)

/-- `Build.prepend_cleanup_exec`: quote each argument. -/
def prepend_cleanup_exec (b : Build) (args : List String) : Build :=
  b.prepend_cleanup_exec_raw (args.map shlex_quote)

/-- `Build.move_tree`. -/
def move_tree (b : Build) (source target : String) (set_tree : Bool) : Build :=
  let nb := (b.append_setup_exec ["mv", source, target]).prepend_cleanup_exec
    ["mv", target, source]
  if set_tree then { nb with tree := path_join target "" } else nb

/-- `Build.from_command`: the initial build value, with the auxiliary tree
created in setup and removed in cleanup. -/
def from_command (build_command : String) (env : List (String × String))
    (tree : String) : Build :=
  let aux_tree := path_join (dirname tree) (basename tree ++ "-aux")
  let b : Build :=
    { build_command := .make ["sh", "-ec", shlex_quote build_command]
      setup := []
      cleanup := []
      env := env
      tree := tree
      aux_tree := aux_tree }
  (b.append_setup_exec ["mkdir", "-p", aux_tree]).prepend_cleanup_exec
    ["rm", "-rf", aux_tree]

end Build

/-! ### The emitted script and its semantics (`Build.to_script`)

`to_script` renders a string.  We embed the script at the level of its
fixed skeleton (build.py lines 154-186): when the cleanup list is empty the
script is just the setup-and-build and-list; otherwise it is the
`run_build`/`cleanup`/trap skeleton with the `! true` / `! false`
clean-on-error guard. -/

inductive Script where
  /-- `str(subshell)`: the setup commands and the build command as one
  and-list (the cleanup list was empty). -/
  | plain (subshell : List Command)
  /-- The skeleton with `run_build() { subshell }`,
  `cleanup() { __c=0; ...; exit $__c }` and the guard `! no_clean_on_error`
  (`whether_to_clean` is shell-true exactly when `no_clean_on_error` was
  falsy). -/
  | withCleanup (subshell : List Command) (cleanup : List Command)
      (whether_to_clean : Bool)
deriving DecidableEq, Repr

/-- `Build.to_script(no_clean_on_error)`. -/
def Build.to_script (b : Build) (no_clean_on_error : Bool) : Script :=
  let subshell := b.setup ++ [b.build_command]
  if b.cleanup.isEmpty then .plain subshell
  else .withCleanup subshell b.cleanup (!no_clean_on_error)

/-- Exit code of an `&&`-chain under an exit-code oracle for the individual
commands: the first non-zero exit, else 0. -/
def andListExit (f : Command → Nat) : List Command → Nat
  | [] => 0
  | c :: cs => if f c = 0 then andListExit f cs else f c

/-- Exit code of the `cleanup()` function: `__c=0`, then every command runs
with `|| __c=$?`, then `exit $__c` — the exit code of the last failing
cleanup command, or 0. -/
def cleanupExit (f : Command → Nat) (cs : List Command) : Nat :=
  cs.foldl (fun acc c => if f c = 0 then acc else f c) 0

/-- Result of running the emitted script under `sh -ec`: the script's exit
code, and how many times the `cleanup()` function ran. -/
structure ScriptRun where
  exit : Nat
  cleanupRuns : Nat
deriving DecidableEq, Repr

/-- Semantics of the emitted script under `sh -ec`, with each atomic
command's exit code given by the oracle `f` (signal traps are not part of
the model).  For the `withCleanup` skeleton:
`if ( run_build ); then ( cleanup ); else __x=$?;
if ( whether_to_clean ); then if ( cleanup ); then :; else echo ...; fi; fi;
exit $__x; fi` — on success the trailing `( cleanup )` is the last command
executed, so its status is the script's status; on failure the guarded
cleanup's status is swallowed and `exit $__x` returns `run_build`'s
status. -/
def runScript (f : Command → Nat) : Script → ScriptRun
  | .plain subshell => ⟨andListExit f subshell, 0⟩
  | .withCleanup subshell cleanup whether_to_clean =>
    let bx := andListExit f subshell
    if bx = 0 then ⟨cleanupExit f cleanup, 1⟩
    else if whether_to_clean then ⟨bx, 1⟩
    else ⟨bx, 0⟩

/-! ### Variation configurations and the variation spec (`build.py`) -/

/-- `EnvironmentVariation`; `vars` is the Python field `variables` (a
strlist-set, here a list) — renamed because `variables` is reserved in
Lean. -/
structure EnvironmentVariation where
  vars : List String
deriving DecidableEq, Repr

/-- `UserGroupVariation`. -/
structure UserGroupVariation where
  available : List String
deriving DecidableEq, Repr

/-- `DomainHostVariation` (`use_sudo` defaults to `0`, i.e. falsy). -/
structure DomainHostVariation where
  use_sudo : Bool
deriving DecidableEq, Repr

/-- `TimeVariation` (`faketimes`/`auto_faketimes` strlist-sets as lists). -/
structure TimeVariation where
  faketimes : List String
  auto_faketimes : List String
deriving DecidableEq, Repr

/-- `TimeVariation.default()`: no fixed faketimes, the single automatic
token `SOURCE_DATE_EPOCH`. -/
def TimeVariation.default : TimeVariation := ⟨[], ["SOURCE_DATE_EPOCH"]⟩

/-- `TimeVariation.empty()`. -/
def TimeVariation.empty : TimeVariation := ⟨[], []⟩

/-- `TimeVariation.apply_dynamic_defaults(source_root)`.  The file system
walk `os.lstat(...).st_mtime for ... in os.walk(source_root)` is abstracted
as the list of the (truncated) modification times of the files under the
source root.  Each `SOURCE_DATE_EPOCH` token resolves to
`"@%d" % int(max(filemtimes, default=0))`; any other token raises
`ValueError`.  The result clears `auto_faketimes` and extends
`faketimes`. -/
def TimeVariation.apply_dynamic_defaults (tv : TimeVariation)
    (filemtimes : List Int) : Except String TimeVariation :=
  match tv.auto_faketimes.foldlM (fun acc a =>
    if a = "SOURCE_DATE_EPOCH" then
      Except.ok (acc ++ ["@" ++ toString ((filemtimes.max?).getD 0)])
    else
      Except.error ("unrecognized auto_faketime: " ++ a)) [] with
  | .error e => .error e
  | .ok new_faketimes =>
    .ok { TimeVariation.empty with faketimes := tv.faketimes ++ new_faketimes }

/-- The configuration value a variation name maps to inside a
`VariationSpec` (the Python namespace stores heterogeneous values). -/
inductive VarConfig where
  | flag (b : Bool)
  | environment (e : EnvironmentVariation)
  | user_group (u : UserGroupVariation)
  | domain_host (d : DomainHostVariation)
  | time (t : TimeVariation)
deriving DecidableEq, Repr

/-- `VariationSpec`: a mapping from variation name to configuration;
a name is enabled exactly when it is present (`k in self.__dict__`). -/
def VariationSpec := String → Option VarConfig

/-- `VariationSpec.empty()`. -/
def VariationSpec.empty : VariationSpec := fun _ => none

/-- `k in spec`. -/
def VariationSpec.contains (s : VariationSpec) (k : String) : Bool :=
  (s k).isSome

/-- `spec._replace(**{k: c})`: set one name's configuration. -/
def VariationSpec.set (s : VariationSpec) (k : String) (c : VarConfig) :
    VariationSpec :=
  fun x => if x = k then some c else s x

/-- `ctx.spec.environment.variables`, total with an empty default (the
transforms only read it under `vary=true` with the name configured). -/
def VariationSpec.environmentVariables (s : VariationSpec) : List String :=
  match s "environment" with
  | some (.environment e) => e.vars
  | _ => []

/-- `ctx.spec.user_group.available`. -/
def VariationSpec.userGroupAvailable (s : VariationSpec) : List String :=
  match s "user_group" with
  | some (.user_group u) => u.available
  | _ => []

/-- `ctx.spec.domain_host.use_sudo`. -/
def VariationSpec.domainHostUseSudo (s : VariationSpec) : Bool :=
  match s "domain_host" with
  | some (.domain_host d) => d.use_sudo
  | _ => false

/-- `ctx.spec.time`. -/
def VariationSpec.timeConfig (s : VariationSpec) : TimeVariation :=
  match s "time" with
  | some (.time t) => t
  | _ => TimeVariation.empty

/-- The context handed to each variation transform.  In the Python this is
the `Variations(spec, verbosity)` namedtuple; the remaining fields are
oracles for the ambient effects the transforms perform: `random.choice`
(locales, faketimes, user-groups), `getpass.getuser()` /
`grp.getgrgid(os.getgid())` and `time.time()`. -/
structure Ctx where
  spec : VariationSpec
  verbosity : Int
  rand_locale : List String → String
  rand_faketime : List String → String
  rand_user_group : List String → String
  olduser : String
  oldgroup : String
  now : Int

/-- A variation transform `(ctx, build, vary) -> build`, raising via
`Except`. -/
def Transform := Ctx → Build → Bool → Except String Build

/-! ### The individual transforms (`build.py`) -/

/-- Modelled from the spec: `environ.parse_environ_templates` is not under
`src/`.  Per the spec's DSL, a template `NAME=VALUE` sets, `NAME=` unsets
(value `None`), and a bare `NAME` captures (here rendered as setting the
name to a fixed capture marker). -/
def parse_environ_template (t : String) : String × Option String :=
  let n := t.data.takeWhile (· ≠ '=')
  let rest := t.data.dropWhile (· ≠ '=')
  match rest with
  | [] => (String.mk n, some "i_capture_the_environment")
  | _ :: v => if v = [] then (String.mk n, none) else (String.mk n, some (String.mk v))

/-- The `environment` transform. -/
def environment : Transform := fun ctx build vary =>
  if !vary then .ok build
  else
    let pairs := ctx.spec.environmentVariables.map parse_environ_template
    let removed := pairs.filterMap (fun kv => if kv.2.isNone then some kv.1 else none)
    let added := pairs.filterMap (fun kv => kv.2.map (fun v => (kv.1, v)))
    build.modify_env added removed

/-- `make_sudo_command(user, group)`; empty strings are the falsy
`None`/empty cases (the Python asserts that not both are falsy). -/
def make_sudo_command (user group : String) : List String :=
  ["sudo", "-E"] ++ (if user ≠ "" then ["-u", user] else [])
    ++ (if group ≠ "" then ["-g", group] else [])
    ++ ["env", "-u", "SUDO_COMMAND", "-u", "SUDO_GID", "-u", "SUDO_UID",
        "-u", "SUDO_USER"]

/-- `parse_user_group`: `""` and `":"` raise; `user:group` splits at the
first colon (a falsy `None` user is the empty string); a plain word is a
user with no group. -/
def parse_user_group (user_group : String) : Except String (String × String) :=
  if user_group = "" ∨ user_group = ":" then
    .error ("user_group is empty: " ++ user_group)
  else if user_group.data.contains ':' then
    .ok (String.mk (user_group.data.takeWhile (· ≠ ':')),
         String.mk ((user_group.data.dropWhile (· ≠ ':')).drop 1))
  else
    .ok (user_group, "")

/-- The `echo ... > aux/hosts && cat /etc/hosts >> aux/hosts` snippet of
`domain_host`. -/
def hostsScript (aux hostname : String) : String :=
  "echo \x22127.0.0.1 " ++ hostname ++ "\x22 > " ++ aux ++
  "/hosts && cat /etc/hosts >> " ++ aux ++ "/hosts"

/-- The inline `sh -ec` body of the unprivileged `unshare -r --uts` branch
of `domain_host`. -/
def unshareHostScript (hostname domainname : String) : String :=
  "\n            hostname " ++ hostname ++
  "\n            domainname \x22" ++ domainname ++ "\x22\n            \x22$@\x22"

/-- The `domain_host` transform. -/
def domain_host : Transform := fun ctx build vary =>
  if !vary then .ok build
  else
    let hostname := "reprotest-capture-hostname"
    let domainname := "reprotest-capture-domainname"
    if ctx.spec.domainHostUseSudo then
      let ns_uts := build.aux_tree ++ "/ns-uts"
      let ns_mnt := build.aux_tree ++ "/ns-mnt"
      let ns_args := ["--mount=" ++ ns_mnt, "--uts=" ++ ns_uts]
      let b1 := build.append_setup_exec ["touch", ns_mnt, ns_uts]
      let b2 := b1.append_setup_exec ["sudo", "mount", "-B", ns_mnt, ns_mnt]
      let b3 := b2.append_setup_exec ["sudo", "mount", "--make-private", ns_mnt]
      let b4 := b3.prepend_cleanup_exec ["sudo", "umount", ns_mnt]
      let b5 := b4.append_setup_exec (["sudo", "unshare"] ++ ns_args ++ ["true"])
      let b6 := b5.prepend_cleanup_exec ["sudo", "umount", ns_mnt]
      let b7 := b6.prepend_cleanup_exec ["sudo", "umount", ns_uts]
      let nsenter := ["sudo", "nsenter"] ++ ns_args
      let b8 := b7.append_setup_exec (nsenter ++ ["hostname", hostname])
      let b9 := b8.append_setup_exec (nsenter ++ ["domainname", domainname])
      let b10 := b9.append_setup_exec
        ["sh", "-ec", hostsScript build.aux_tree hostname]
      let b11 := b10.append_setup_exec
        (nsenter ++ ["mount", "-B", build.aux_tree ++ "/hosts", "/etc/hosts"])
      .ok (b11.prepend_to_build_command
        (["sudo", "-E", "nsenter"] ++ ns_args ++
          make_sudo_command ctx.olduser ctx.oldgroup))
    else
      if ctx.spec.contains "user_group" && ctx.spec.userGroupAvailable ≠ [] then
        .error "Incompatible variations; check the log for details."
      else
        .ok (build.prepend_to_build_command
          (["unshare", "-r", "--uts", "sh", "-ec",
            unshareHostScript hostname domainname, "-"]))

/-- The `build_path` transform: on the *control* (`vary=false`), move the
tree to the constant path. -/
def build_path : Transform := fun _ctx build vary =>
  if vary then .ok build
  else
    .ok (build.move_tree build.tree
      (path_join (dirname build.tree) "const_build_path") true)

/-- The `fileordering` transform (requires the `disorderfs` tool). -/
def fileordering : Transform := fun ctx build vary =>
  if !vary then .ok build
  else
    let old_tree := path_join
      (path_join (dirname build.tree) (basename build.tree ++ "-before-disorderfs")) ""
    let b1 := build.move_tree build.tree old_tree false
    let b2 := b1.append_setup_exec ["mkdir", "-p", build.tree]
    let b3 := b2.prepend_cleanup_exec ["rmdir", build.tree]
    let disorderfs := ["disorderfs"] ++ (if ctx.verbosity ≥ 2 then [">&2"] else ["-q"])
    let b4 := b3.append_setup_exec_raw
      (disorderfs ++ (["--shuffle-dirents=yes", old_tree, build.tree].map shlex_quote))
    let b5 := b4.prepend_cleanup_exec ["fusermount", "-u", build.tree]
    let binpath := path_join (dirname build.tree) "bin"
    .ok (b5.prepend_cleanup_exec_raw
      ["export", "PATH=\x22" ++ binpath ++ ":$PATH\x22"])

/-- The `home` transform. -/
def home : Transform := fun _ctx build vary =>
  if !vary then .ok (build.add_env "HOME" build.tree)
  else .ok (build.add_env "HOME" "/nonexistent/second-build")

/-- The `kernel` transform: wraps the build command on both the control and
the experiment. -/
def kernel : Transform := fun _ctx build vary =>
  if !vary then .ok (build.prepend_to_build_command ["linux64", "--uname-2.6"])
  else .ok (build.prepend_to_build_command ["linux32"])

/-- The `locales` transform; the experiment locale is `random.choice`d from
the fixed list. -/
def locales : Transform := fun ctx build vary =>
  if !vary then .ok ((build.add_env "LANG" "C.UTF-8").add_env "LANGUAGE" "en_US:en")
  else
    let loc := ctx.rand_locale
      ["fr_CH.UTF-8", "es_ES", "ru_RU.CP1251", "kk_KZ.RK1048", "zh_CN"]
    .ok (((build.add_env "LANG" loc).add_env "LC_ALL" loc).add_env
      "LANGUAGE" (loc ++ ":fr"))

/-- The `exec_path` transform: append a sentinel directory to `PATH`
(`build.env['PATH']` raises `KeyError` when `PATH` is not in the build
environment). -/
def exec_path : Transform := fun _ctx build vary =>
  if !vary then .ok build
  else
    match envGet build.env "PATH" with
    | none => .error "KeyError: PATH"
    | some p => .ok (build.add_env "PATH" (p ++ ":/i_capture_the_path"))

/-- The `timezone` transform: `GMT+12` against `GMT-14`. -/
def timezone : Transform := fun _ctx build vary =>
  if !vary then .ok (build.add_env "TZ" "GMT+12")
  else .ok (build.add_env "TZ" "GMT-14")

/-- Decimal integer parsing, as `int(...)` on the digits of a faketime
timestamp. -/
def str_to_int (s : String) : Option Int :=
  let digits (ds : List Char) : Option Nat :=
    if ds = [] then none
    else ds.foldlM (fun acc c =>
      if c.isDigit then some (acc * 10 + (c.toNat - '0'.toNat)) else none) 0
  match s.data with
  | '-' :: ds => (digits ds).map (fun n => -(n : Int))
  | '+' :: ds => (digits ds).map (fun n => (n : Int))
  | ds => (digits ds).map (fun n => (n : Int))

/-- The `time` transform (`faketime` in `build.py`; requires the `faketime`
tool).  `random.choice` on an empty `faketimes` list raises `IndexError`;
a chosen `@<stamp>` more than 32253180 seconds in the past is used
directly, otherwise the fixed future offset is used. -/
def choose_faket (now : Int) (lastmt : String) : Except String String :=
  if strStartsWith lastmt "@" then
    match str_to_int (strDrop lastmt 1) with
    | none => .error ("invalid literal for int: " ++ strDrop lastmt 1)
    | some n =>
      .ok (if n < now - 32253180 then lastmt else "+373days+7hours+13minutes")
  else .ok "+373days+7hours+13minutes"

def faketime : Transform := fun ctx build vary =>
  if !vary then .ok build
  else
    let fts := ctx.spec.timeConfig.faketimes
    if fts = [] then .error "IndexError: cannot choose from an empty sequence"
    else
      match choose_faket ctx.now (ctx.rand_faketime fts) with
      | .error e => .error e
      | .ok faket =>
        .ok ((build.add_env "NO_FAKE_STAT" "1").prepend_to_build_command
          ["faketime", faket])

/-- The `umask` transform: `umask 0022` against `umask 0002`, in setup. -/
def umask : Transform := fun _ctx build vary =>
  if !vary then .ok (build.append_setup_exec ["umask", "0022"])
  else .ok (build.append_setup_exec ["umask", "0002"])

/-- The `sh -ec` body that `user_group` uses to install the
`disorderfs`/`mkdir`/`fusermount` shims under `aux/bin`. -/
def shimScript (binpath sudocmd : String) : String :=
  let shim (tool path : String) : String :=
    "        printf " ++ sq ++ "#!/bin/sh\x5cn" ++ sudocmd ++ " " ++ path ++
    " \x22$@\x22\x5cn" ++ sq ++ " > \x22" ++ binpath ++ "\x22/" ++ tool ++
    "\n        chmod +x \x22" ++ binpath ++ "\x22/" ++ tool ++ "\n"
  "\n        mkdir -p \x22" ++ binpath ++ "\x22\n" ++
  shim "disorderfs" "/usr/bin/disorderfs" ++
  shim "mkdir" "/bin/mkdir" ++
  shim "fusermount" "/bin/fusermount" ++ "    "

/-- The `user_group` transform (requires the `sudo` tool).  With an empty
`available` set it warns and returns the build unchanged.  The
`random.choice` pick is an oracle; the Python subtracts the *tuple*
`(olduser, oldgroup)` from a set of *strings*, which never removes
anything, so the choice ranges over all of `available`. -/
def user_group : Transform := fun ctx build vary =>
  if !vary then .ok build
  else
    let available := ctx.spec.userGroupAvailable
    if available = [] then .ok build
    else
      match parse_user_group (ctx.rand_user_group available) with
      | .error e => .error e
      | .ok (user0, group) =>
      let sudo_command := make_sudo_command user0 group
      let user := if user0 = "" then ctx.olduser else user0
      let binpath := path_join (dirname build.tree) "bin"
      let b1 := build.prepend_to_build_command sudo_command
      let b2 := b1.append_setup_exec
        ["sh", "-ec", shimScript binpath (String.intercalate " "
          (sudo_command.map shlex_quote))]
      let b3 := b2.prepend_cleanup_exec
        ["sh", "-ec", "cd \x22" ++ binpath ++ "\x22 && rm -f disorderfs mkdir fusermount"]
      let b4 := b3.append_setup_exec_raw
        ["export", "PATH=\x22" ++ binpath ++ ":$PATH\x22"]
      if user ≠ ctx.olduser then
        .ok ((b4.append_setup_exec
          ["sudo", "chown", "-h", "-R", "--from=" ++ ctx.olduser, user, build.tree]).prepend_cleanup_exec
          ["sudo", "chown", "-h", "-R", "--from=" ++ user, ctx.olduser, build.tree])
      else .ok b4

/-! ### The variation registry and the planner -/

/-- The ordered registry `VARIATIONS` of `build.py`. -/
def VARIATIONS : List (String × Transform) :=
  [("environment", environment),
   ("build_path", build_path),
   ("user_group", user_group),
   ("fileordering", fileordering),
   ("domain_host", domain_host),
   ("home", home),
   ("kernel", kernel),
   ("locales", locales),
   ("exec_path", exec_path),
   ("time", faketime),
   ("timezone", timezone),
   ("umask", umask)]

/-- `VariationSpec.all_names()`. -/
def allVariationNames : List String := VARIATIONS.map Prod.fst

/-- `spec.actions()`: every registry entry with its vary flag
(`k in self.__dict__`). -/
def VariationSpec.actions (s : VariationSpec) : List (String × Bool × Transform) :=
  VARIATIONS.map (fun kf => (kf.1, s.contains kf.1, kf.2))

/-- `BuildContext.plan_variations`: fold the registry's transforms over the
build, passing each its vary flag. -/
def plan_variations (ctx : Ctx) (build : Build) : Except String Build :=
  (ctx.spec.actions).foldlM (fun b a => a.2.2 ctx b a.2.1) build

/-- The tools each variation requires (`@tool_required` decorations in
`build.py`). -/
def tool_required_of (name : String) : List String :=
  if name = "fileordering" then ["disorderfs"]
  else if name = "time" then ["faketime"]
  else if name = "user_group" then ["sudo"]
  else []

/-- `tool_missing(f)` under a `shutil.which` oracle: the required tools not
found on PATH. -/
def tool_missing (which : String → Bool) (name : String) : List String :=
  (tool_required_of name).filter (fun t => !(which t))

/-- `VariationSpec.default()`: every registry name enabled, with the four
structured default configurations. -/
def VariationSpec.default : VariationSpec := fun k =>
  if k = "environment" then some (.environment ⟨["REPROTEST_CAPTURE_ENVIRONMENT"]⟩)
  else if k = "user_group" then some (.user_group ⟨[]⟩)
  else if k = "time" then some (.time TimeVariation.default)
  else if k = "domain_host" then some (.domain_host ⟨false⟩)
  else if k ∈ allVariationNames then some (.flag true)
  else none

/-! ### `BuildContext.run_build`'s script-rendering call

`run_build` appends the `REPROTEST_BUILD_PATH`/`REPROTEST_UMASK` exports to
the setup phase and then renders the script with `_.to_script()` — a call
carrying **zero** arguments, although `Build.to_script(self,
no_clean_on_error)` declares `no_clean_on_error` with no default.  The
Python calling convention is modelled explicitly: a call with the wrong
number of positional arguments raises `TypeError`. -/

def to_script_call (b : Build) (args : List Bool) : Except String Script :=
  match args with
  | [a] => .ok (b.to_script a)
  | [] => .error
      "TypeError: to_script() missing 1 required positional argument: no_clean_on_error"
  | _ => .error "TypeError: to_script() takes 2 positional arguments"

/-- The script-rendering part of `BuildContext.run_build` (`__init__.py`
lines 178-181): two setup exports, then `_.to_script()` with no
argument. -/
def run_build_render (build : Build) : Except String Script :=
  let b1 := build.append_setup_exec_raw
    ["export", "REPROTEST_BUILD_PATH=" ++ build.tree]
  let b2 := b1.append_setup_exec_raw ["export", "REPROTEST_UMASK=$(umask)"]
  to_script_call b2 []

/-! ### The auto-bisector (`check_auto` in `__init__.py`)

`check_auto` performs one build for the control's artifacts, then calls the
`is_reproducible` oracle — one extra build plus a diff per call — first on
the control spec, then on the full spec, then once per shuffled variation
name.  The oracle is modelled as a function of the call index (builds are
fresh every time, so distinct calls may answer differently even on equal
specs) and the candidate spec.  The shuffled name order is a parameter. -/

/-- `spec[v]` (`__getitem__`): raises `KeyError` when absent. -/
def VariationSpec.get (s : VariationSpec) (k : String) : Except String VarConfig :=
  match s k with
  | some c => .ok c
  | none => .error ("KeyError: " ++ k)

/-- Outcome of `check_auto`: the returned boolean, the printed
`unreproducibles` witness list, and the total number of builds
performed. -/
structure AutoOutcome where
  result : Bool
  witnesses : List String
  builds : Nat
deriving DecidableEq, Repr

/-- The main loop of `check_auto`: walk the names keeping a current spec
`cur`; the candidate takes `v`'s configuration from the full spec `x1`;
commit on a reproducible probe, else record `v`.  `i` numbers the oracle
calls; the returned `Nat` is the next call index. -/
def auto_walk (repro : Nat → VariationSpec → Bool) (x1 : VariationSpec) :
    Nat → VariationSpec → List String →
    Except String (VariationSpec × List String × Nat)
  | i, cur, [] => .ok (cur, [], i)
  | i, cur, v :: vs => do
    let c ← x1.get v
    let cand := cur.set v c
    if repro i cand then
      let (fin, wit, n) ← auto_walk repro x1 (i + 1) cand vs
      .ok (fin, wit, n)
    else
      let (fin, wit, n) ← auto_walk repro x1 (i + 1) cur vs
      .ok (fin, v :: wit, n)

/-- `check_auto(test_args, testbed_args, build_variations)`, over the two
specs `var_x0` (control) and `var_x1` (full) and the shuffled name list.
Oracle call 0 is `is_reproducible("0", var_x0)`, call 1 is
`is_reproducible("1", var_x1)`, calls 2... are the per-name probes; the
build count is one (the control's own build) plus one per oracle call. -/
def check_auto (repro : Nat → VariationSpec → Bool) (x0 x1 : VariationSpec)
    (names : List String) : Except String AutoOutcome :=
  if !(repro 0 x0) then .ok ⟨false, [], 2⟩
  else if repro 1 x1 then .ok ⟨true, [], 3⟩
  else do
    let (_, wit, n) ← auto_walk repro x1 2 x0 names
    .ok ⟨false, wit, 1 + n⟩

/-- Claim-side rendering of the bisection walk, following the specified
algorithm word for word: maintain a current spec initialised to the
control; for each name the candidate equals the current spec except that
the name's configuration is taken from the full spec; commit the candidate
when the probe is reproducible, otherwise record the name as a witness. -/
def bisectWalk (repro : Nat → VariationSpec → Bool) (x1 : VariationSpec) :
    Nat → VariationSpec → List String → List String
  | _, _, [] => []
  | i, cur, v :: vs =>
    let cand := cur.set v ((x1 v).getD (.flag false))
    if repro i cand then bisectWalk repro x1 (i + 1) cand vs
    else v :: bisectWalk repro x1 (i + 1) cur vs

/-! ### Abstract file-system semantics for setup/cleanup commands

For the cleanup-completeness claim the relevant commands are interpreted
over an abstract state: `dirs` is the (flat) collection of directory-tree
locations and `mounts` the stack of active mount points.  `mv` relocates a
tree; `unshare --mount=f --uts=g true` pins the new namespaces by mounting
onto `f` and `g`; commands run through `nsenter` act inside the ephemeral
namespace and have no effect on the outside state; wrapper commands and
commands not recognised below do not touch the state. -/

structure FsState where
  dirs : List String
  mounts : List String
deriving DecidableEq, Repr

/-- The namespace files pinned by an `unshare --mount=... --uts=...`
invocation. -/
def pinArgs (args : List String) : List String :=
  args.filterMap (fun a =>
    if strStartsWith a "--mount=" then some (strDrop a 8)
    else if strStartsWith a "--uts=" then some (strDrop a 6)
    else none)

/-- Effect of a command run with the `sudo` prefix on the abstract state:
bind mounts and namespace pins add mount points, `umount` removes one,
`mount --make-private` and anything entered through `nsenter` (whose
effects die with the ephemeral namespace) leave the state unchanged. -/
def sudoSem (args : List String) (st : FsState) : FsState :=
  match args with
  | ["mount", "-B", _, t] => { st with mounts := t :: st.mounts }
  | ["mount", "--make-private", _] => st
  | ["umount", p] => { st with mounts := st.mounts.erase p }
  | "unshare" :: rest =>
    { st with mounts := (pinArgs rest).foldl (fun m p => p :: m) st.mounts }
  | "nsenter" :: _ => st
  | _ => st

/-- Effect of one command, dispatched on its first word. -/
def cmdSemW (w : String) (args : List String) (st : FsState) : FsState :=
  if w = "mkdir" then
    match args with
    | ["-p", p] => { st with dirs := p :: st.dirs }
    | _ => st
  else if w = "rmdir" then
    match args with
    | [p] => { st with dirs := st.dirs.erase p }
    | _ => st
  else if w = "rm" then
    match args with
    | ["-rf", p] => { st with dirs := st.dirs.erase p }
    | _ => st
  else if w = "mv" then
    match args with
    | [s, t] =>
      { st with dirs := st.dirs.map (fun q => if q = s then t else q) }
    | _ => st
  else if w = "touch" then
    match args with
    | [p, q] => { st with dirs := q :: p :: st.dirs }
    | _ => st
  else if w = "fusermount" then
    match args with
    | ["-u", p] => { st with mounts := st.mounts.erase p }
    | _ => st
  else if w = "disorderfs" then
    match args.getLast? with
    | some p => { st with mounts := p :: st.mounts }
    | none => st
  else if w = "sudo" then sudoSem args st
  else st

/-- Effect of one setup/cleanup command on the abstract state. -/
def cmdSem (c : Command) (st : FsState) : FsState :=
  match c with
  | .wrap _ _ => st
  | .make [] => st
  | .make (w :: args) => cmdSemW w args st

/-- Run a command list left to right over the abstract state. -/
def runCmds (cs : List Command) (st : FsState) : FsState :=
  cs.foldl (fun s c => cmdSem c s) st

/-- The `-before-disorderfs` staging location `fileordering` moves the
tree to. -/
def foOldTree (b : Build) : String :=
  path_join (path_join (dirname b.tree) (basename b.tree ++ "-before-disorderfs")) ""

/-- The `aux` bin directory referenced by `fileordering`'s cleanup. -/
def foBinPath (b : Build) : String := path_join (dirname b.tree) "bin"

/-- The setup commands `fileordering` appends (in order): move the tree
aside, recreate an empty tree, mount disorderfs over it. -/
def foSetupDelta (ctx : Ctx) (b : Build) : List Command :=
  [.make (["mv", b.tree, foOldTree b].map shlex_quote),
   .make (["mkdir", "-p", b.tree].map shlex_quote),
   .make ((["disorderfs"] ++ (if ctx.verbosity ≥ 2 then [">&2"] else ["-q"])) ++
     (["--shuffle-dirents=yes", foOldTree b, b.tree].map shlex_quote))]

/-- The cleanup commands `fileordering` leaves at the head of the cleanup
list (in execution order): restore PATH for the shims, unmount disorderfs,
remove the empty mountpoint, move the tree back — the reverse of the setup
additions, i.e. LIFO. -/
def foCleanupDelta (b : Build) : List Command :=
  [.make ["export", "PATH=\x22" ++ foBinPath b ++ ":$PATH\x22"],
   .make (["fusermount", "-u", b.tree].map shlex_quote),
   .make (["rmdir", b.tree].map shlex_quote),
   .make (["mv", foOldTree b, b.tree].map shlex_quote)]

/-- The setup commands `domain_host` (with sudo) appends: create the
namespace pin files, bind-mount and make-private the mount pin, pin both
namespaces via `unshare`, configure hostname/domainname and the hosts file
inside the namespace. -/
def dhSetupDelta (b : Build) : List Command :=
  [.make (["touch", b.aux_tree ++ "/ns-mnt", b.aux_tree ++ "/ns-uts"].map shlex_quote),
   .make (["sudo", "mount", "-B", b.aux_tree ++ "/ns-mnt",
     b.aux_tree ++ "/ns-mnt"].map shlex_quote),
   .make (["sudo", "mount", "--make-private", b.aux_tree ++ "/ns-mnt"].map shlex_quote),
   .make ((["sudo", "unshare"] ++
     ["--mount=" ++ (b.aux_tree ++ "/ns-mnt"), "--uts=" ++ (b.aux_tree ++ "/ns-uts")] ++
     ["true"]).map shlex_quote),
   .make ((["sudo", "nsenter"] ++
     ["--mount=" ++ (b.aux_tree ++ "/ns-mnt"), "--uts=" ++ (b.aux_tree ++ "/ns-uts")] ++
     ["hostname", "reprotest-capture-hostname"]).map shlex_quote),
   .make ((["sudo", "nsenter"] ++
     ["--mount=" ++ (b.aux_tree ++ "/ns-mnt"), "--uts=" ++ (b.aux_tree ++ "/ns-uts")] ++
     ["domainname", "reprotest-capture-domainname"]).map shlex_quote),
   .make (["sh", "-ec",
     hostsScript b.aux_tree "reprotest-capture-hostname"].map shlex_quote),
   .make ((["sudo", "nsenter"] ++
     ["--mount=" ++ (b.aux_tree ++ "/ns-mnt"), "--uts=" ++ (b.aux_tree ++ "/ns-uts")] ++
     ["mount", "-B", b.aux_tree ++ "/hosts", "/etc/hosts"]).map shlex_quote)]

/-- The cleanup commands `domain_host` (with sudo) leaves at the head of
the cleanup list (in execution order): unmount the uts pin, then the mount
pin twice (the `unshare` pin over the original bind mount) — the reverse
of the mounts performed in setup. -/
def dhCleanupDelta (b : Build) : List Command :=
  [.make (["sudo", "umount", b.aux_tree ++ "/ns-uts"].map shlex_quote),
   .make (["sudo", "umount", b.aux_tree ++ "/ns-mnt"].map shlex_quote),
   .make (["sudo", "umount", b.aux_tree ++ "/ns-mnt"].map shlex_quote)]

/-! ### Wrapper composition -/

/-- Apply a list of wrapper prefixes around a command, first element
innermost. -/
def wrapsFold (ws : List (List String)) (c : Command) : Command :=
  ws.foldl (fun c w => Command.wrap w c) c

/-- A transform only ever modifies the build command by wrapping prefixes
around it. -/
def WrapProp (f : Transform) : Prop :=
  ∀ ctx b vary b', f ctx b vary = .ok b' →
    ∃ ws, b'.build_command = wrapsFold ws b.build_command

/-- The per-entry wrapper decomposition of a planner run: each registry
entry in turn transformed the build successfully and contributed the next
block of wrapper prefixes, so that the first entry's wrappers are innermost
and the last entry's outermost. -/
def WrapChain : List (String × Bool × Transform) → Ctx → Build → Build →
    List (List (List String)) → Prop
  | [], _, b, b', ws => b' = b ∧ ws = []
  | a :: acts, ctx, b, b', ws =>
    ∃ bi wi rest, a.2.2 ctx b a.2.1 = .ok bi ∧
      bi.build_command = wrapsFold wi b.build_command ∧
      WrapChain acts ctx bi b' rest ∧ ws = wi :: rest

/-- Whether an `Except` result is a success. -/
def exceptOk {α : Type} : Except String α → Bool
  | .ok _ => true
  | .error _ => false

/-- Whether a finished or aborted sanitizer run is a rejection: an error,
or a final state inside a quote or an escape. -/
def sanRejected (r : Except String SanState) : Bool :=
  match r with
  | .error _ => true
  | .ok st => decide (st.in_quote ≠ .no) || st.escaped

/-! ### Concrete inputs used by counterexamples and witnesses -/

/-- Exit-code oracle: `false` exits 7, `exit3` exits 3, everything else
succeeds. -/
def fOracle : Command → Nat := fun c =>
  match c with
  | .make ["false"] => 7
  | .make ["exit3"] => 3
  | _ => 0

/-- A build whose build command succeeds and whose single cleanup command
fails. -/
def bCleanupFails : Build :=
  { build_command := .make ["sh", "-ec", "true"]
    setup := []
    cleanup := [.make ["false"]]
    env := []
    tree := "/tmp/src/"
    aux_tree := "/tmp/src-aux" }

/-- A build whose build command fails with exit 3 and whose single cleanup
command fails. -/
def bBuildFails : Build :=
  { build_command := .make ["exit3"]
    setup := []
    cleanup := [.make ["false"]]
    env := []
    tree := "/tmp/src/"
    aux_tree := "/tmp/src-aux" }

/-- A fresh initial build for exercising single transforms. -/
def bTool : Build :=
  { build_command := .make ["sh", "-ec", "make"]
    setup := []
    cleanup := []
    env := [("PATH", "/usr/bin")]
    tree := "/tmp/build-x/"
    aux_tree := "/tmp/build-x-aux" }

/-- A spec enabling `time` with one fixed faketime and `user_group` with
one available user:group. -/
def specC6 : VariationSpec := fun k =>
  if k = "time" then some (.time ⟨["@0"], []⟩)
  else if k = "user_group" then some (.user_group ⟨["user2:group2"]⟩)
  else none

/-- A context over `specC6` with deterministic oracles. -/
def ctxC6 : Ctx :=
  { spec := specC6
    verbosity := 0
    rand_locale := fun l => l.headD ""
    rand_faketime := fun l => l.headD ""
    rand_user_group := fun l => l.headD ""
    olduser := "user"
    oldgroup := "group"
    now := 0 }

/-- The build produced by the `fileordering` transform on `bTool` with
`vary = true`. -/
def foRes : Build :=
  match fileordering ctxC6 bTool true with
  | .ok b => b
  | .error _ => bTool

/-- The build produced by the `time` transform on `bTool` with
`vary = true`. -/
def ftRes : Build :=
  match faketime ctxC6 bTool true with
  | .ok b => b
  | .error _ => bTool

/-- The build produced by the `user_group` transform on `bTool` with
`vary = true`. -/
def ugRes : Build :=
  match user_group ctxC6 bTool true with
  | .ok b => b
  | .error _ => bTool

/-- The build planned by `plan_variations` over `ctxC6` (which varies
`time` and `user_group`) starting from `bTool`. -/
def planC2 : Build :=
  match plan_variations ctxC6 bTool with
  | .ok b => b
  | .error _ => bTool

/-- A spec enabling `domain_host` with `use_sudo`. -/
def specDH : VariationSpec := fun k =>
  if k = "domain_host" then some (.domain_host ⟨true⟩) else none

/-- A context over `specDH`. -/
def ctxDH : Ctx :=
  { spec := specDH
    verbosity := 0
    rand_locale := fun l => l.headD ""
    rand_faketime := fun l => l.headD ""
    rand_user_group := fun l => l.headD ""
    olduser := "user"
    oldgroup := "group"
    now := 0 }

/-- The build produced by the `domain_host` transform on `bTool` with
`vary = true` over `ctxDH`. -/
def dhRes : Build :=
  match domain_host ctxDH bTool true with
  | .ok b => b
  | .error _ => bTool

/-- An abstract state holding one source tree and no mounts. -/
def stTree : FsState := { dirs := ["/tmp/build-x/"], mounts := [] }

/-! ### Helper lemmas -/

@[simp] theorem add_env_build_command (b : Build) (k v : String) :
    (b.add_env k v).build_command = b.build_command := rfl

@[simp] theorem append_setup_build_command (b : Build) (c : Command) :
    (b.append_setup c).build_command = b.build_command := rfl

@[simp] theorem append_setup_exec_raw_build_command (b : Build) (args : List String) :
    (b.append_setup_exec_raw args).build_command = b.build_command := rfl

@[simp] theorem append_setup_exec_build_command (b : Build) (args : List String) :
    (b.append_setup_exec args).build_command = b.build_command := rfl

@[simp] theorem prepend_cleanup_build_command (b : Build) (c : Command) :
    (b.prepend_cleanup c).build_command = b.build_command := rfl

@[simp] theorem prepend_cleanup_exec_raw_build_command (b : Build) (args : List String) :
    (b.prepend_cleanup_exec_raw args).build_command = b.build_command := rfl

@[simp] theorem prepend_cleanup_exec_build_command (b : Build) (args : List String) :
    (b.prepend_cleanup_exec args).build_command = b.build_command := rfl

@[simp] theorem move_tree_build_command (b : Build) (s t : String) (f : Bool) :
    (b.move_tree s t f).build_command = b.build_command := by
  unfold Build.move_tree
  split <;> rfl

@[simp] theorem add_env_setup (b : Build) (k v : String) :
    (b.add_env k v).setup = b.setup := rfl

@[simp] theorem add_env_cleanup (b : Build) (k v : String) :
    (b.add_env k v).cleanup = b.cleanup := rfl

@[simp] theorem append_setup_setup (b : Build) (c : Command) :
    (b.append_setup c).setup = b.setup ++ [c] := rfl

@[simp] theorem append_setup_cleanup (b : Build) (c : Command) :
    (b.append_setup c).cleanup = b.cleanup := rfl

@[simp] theorem append_setup_exec_raw_setup (b : Build) (args : List String) :
    (b.append_setup_exec_raw args).setup = b.setup ++ [.make args] := rfl

@[simp] theorem append_setup_exec_raw_cleanup (b : Build) (args : List String) :
    (b.append_setup_exec_raw args).cleanup = b.cleanup := rfl

@[simp] theorem append_setup_exec_setup (b : Build) (args : List String) :
    (b.append_setup_exec args).setup
      = b.setup ++ [.make (args.map shlex_quote)] := rfl

@[simp] theorem append_setup_exec_cleanup (b : Build) (args : List String) :
    (b.append_setup_exec args).cleanup = b.cleanup := rfl

@[simp] theorem prepend_cleanup_setup (b : Build) (c : Command) :
    (b.prepend_cleanup c).setup = b.setup := rfl

@[simp] theorem prepend_cleanup_cleanup (b : Build) (c : Command) :
    (b.prepend_cleanup c).cleanup = c :: b.cleanup := rfl

@[simp] theorem prepend_cleanup_exec_raw_setup (b : Build) (args : List String) :
    (b.prepend_cleanup_exec_raw args).setup = b.setup := rfl

@[simp] theorem prepend_cleanup_exec_raw_cleanup (b : Build) (args : List String) :
    (b.prepend_cleanup_exec_raw args).cleanup = .make args :: b.cleanup := rfl

@[simp] theorem prepend_cleanup_exec_setup (b : Build) (args : List String) :
    (b.prepend_cleanup_exec args).setup = b.setup := rfl

@[simp] theorem prepend_cleanup_exec_cleanup (b : Build) (args : List String) :
    (b.prepend_cleanup_exec args).cleanup
      = .make (args.map shlex_quote) :: b.cleanup := rfl

@[simp] theorem prepend_to_build_command_setup (b : Build) (pre : List String) :
    (b.prepend_to_build_command pre).setup = b.setup := rfl

@[simp] theorem prepend_to_build_command_cleanup (b : Build) (pre : List String) :
    (b.prepend_to_build_command pre).cleanup = b.cleanup := rfl

@[simp] theorem move_tree_setup (b : Build) (s t : String) (f : Bool) :
    (b.move_tree s t f).setup
      = b.setup ++ [.make (["mv", s, t].map shlex_quote)] := by
  unfold Build.move_tree
  split <;> rfl

@[simp] theorem move_tree_cleanup (b : Build) (s t : String) (f : Bool) :
    (b.move_tree s t f).cleanup
      = .make (["mv", t, s].map shlex_quote) :: b.cleanup := by
  unfold Build.move_tree
  split <;> rfl

@[simp] theorem prepend_to_build_command_build_command (b : Build) (pre : List String) :
    (b.prepend_to_build_command pre).build_command
      = .wrap (pre.map shlex_quote) b.build_command := rfl

theorem modify_env_ok {b : Build} {add : List (String × String)}
    {rem : List String} {b' : Build} (h : b.modify_env add rem = .ok b') :
    ∃ e, b' = { b with env := e } := by
  unfold Build.modify_env at h
  cases hr : rem.foldlM envDel (add.foldl (fun e kv => envSet e kv.1 kv.2) b.env) with
  | error e => rw [hr] at h; exact absurd h (by simp)
  | ok e =>
    rw [hr] at h
    simp only [Except.ok.injEq] at h
    exact ⟨e, h.symm⟩

@[simp] theorem wrapsFold_nil (c : Command) : wrapsFold [] c = c := rfl

@[simp] theorem wrapsFold_cons (w : List String) (ws : List (List String)) (c : Command) :
    wrapsFold (w :: ws) c = wrapsFold ws (.wrap w c) := rfl

theorem wrapsFold_append (ws1 ws2 : List (List String)) (c : Command) :
    wrapsFold (ws1 ++ ws2) c = wrapsFold ws2 (wrapsFold ws1 c) := by
  simp [wrapsFold, List.foldl_append]

theorem command_depth_wrapsFold (ws : List (List String)) (c : Command) :
    (wrapsFold ws c).depth = c.depth + ws.length := by
  induction ws generalizing c with
  | nil => rfl
  | cons w ws ih => simp [wrapsFold_cons, ih, Command.depth]; omega

theorem san_run_rejected (cs : List Char) :
    ∀ (words : List String) (cw : Option String) (q : InQuote) (esc : Bool),
      sanRejected (san_run ⟨words, cw, q, esc⟩ cs) = claimRejects q esc cs := by
  induction cs with
  | nil =>
    intro words cw q esc
    simp [san_run, sanRejected, claimRejects]
  | cons c cs ih =>
    intro words cw q esc
    match q, esc with
    | .no, true =>
      simp only [san_run, san_step, appendCw, claimRejects]
      exact ih _ _ _ _
    | .no, false =>
      by_cases h1 : c ∈ special_except_quotes
      · simp [san_run, san_step, h1, claimRejects, sanRejected]
      · by_cases h2 : c = '\x5c'
        · simp only [san_run, san_step, if_neg h1, if_pos h2, appendCw]
          simp only [claimRejects, if_neg h1, if_pos h2]
          exact ih _ _ _ _
        · by_cases h3 : c = '\x27'
          · simp only [san_run, san_step, if_neg h1, if_neg h2, if_pos h3, appendCw]
            simp only [claimRejects, if_neg h1, if_neg h2, if_pos h3]
            exact ih _ _ _ _
          · by_cases h4 : c = '\x22'
            · simp only [san_run, san_step, if_neg h1, if_neg h2, if_neg h3,
                if_pos h4, appendCw]
              simp only [claimRejects, if_neg h1, if_neg h2, if_neg h3, if_pos h4]
              exact ih _ _ _ _
            · by_cases h5 : c = ' '
              · simp only [san_run, san_step, if_neg h1, if_neg h2, if_neg h3,
                  if_neg h4, if_pos h5, nextWord]
                simp only [claimRejects, if_neg h1, if_neg h2, if_neg h3, if_neg h4]
                cases cw with
                | none => exact ih _ _ _ _
                | some w => exact ih _ _ _ _
              · simp only [san_run, san_step, if_neg h1, if_neg h2, if_neg h3,
                  if_neg h4, if_neg h5, appendCw]
                simp only [claimRejects, if_neg h1, if_neg h2, if_neg h3, if_neg h4]
                exact ih _ _ _ _
    | .single, b =>
      by_cases h1 : c = '\x27'
      · simp only [san_run, san_step, if_pos h1, appendCw]
        simp only [claimRejects, if_pos h1]
        exact ih _ _ _ _
      · simp only [san_run, san_step, if_neg h1, appendCw]
        simp only [claimRejects, if_neg h1]
        exact ih _ _ _ _
    | .double, true =>
      by_cases h1 : c ∈ escaped_in_double_quotes
      · simp only [san_run, san_step, if_pos h1, appendCw]
        simp only [claimRejects]
        exact ih _ _ _ _
      · simp only [san_run, san_step, if_neg h1, appendCw]
        simp only [claimRejects]
        exact ih _ _ _ _
    | .double, false =>
      by_cases h1 : c ∈ special_in_double_quotes
      · simp [san_run, san_step, h1, claimRejects, sanRejected]
      · by_cases h2 : c = '\x5c'
        · simp only [san_run, san_step, if_neg h1, if_pos h2, appendCw]
          simp only [claimRejects, if_neg h1, if_pos h2]
          exact ih _ _ _ _
        · by_cases h3 : c = '\x22'
          · simp only [san_run, san_step, if_neg h1, if_neg h2, if_pos h3, appendCw]
            simp only [claimRejects, if_neg h1, if_neg h2, if_pos h3]
            exact ih _ _ _ _
          · simp only [san_run, san_step, if_neg h1, if_neg h2, if_neg h3, appendCw]
            simp only [claimRejects, if_neg h1, if_neg h2, if_neg h3]
            exact ih _ _ _ _

theorem sanitize_globs_accepts_iff (s : String) (fr : Bool) :
    exceptOk (sanitize_globs s fr) = !(claimRejects .no false s.data) := by
  have key := san_run_rejected s.data [] none .no false
  unfold sanitize_globs
  cases hr : san_run ⟨[], none, .no, false⟩ s.data with
  | error e =>
    rw [hr] at key
    simp only [sanRejected] at key
    simp [Bind.bind, Except.bind, exceptOk, ← key]
  | ok st =>
    rw [hr] at key
    simp only [sanRejected] at key
    simp only [Bind.bind, Except.bind]
    by_cases hq : st.in_quote ≠ InQuote.no ∨ st.escaped = true
    · have : (decide (st.in_quote ≠ InQuote.no) || st.escaped) = true := by
        rcases hq with h | h <;> simp [h]
      rw [this] at key
      simp [hq, exceptOk, ← key]
    · have : (decide (st.in_quote ≠ InQuote.no) || st.escaped) = false := by
        push_neg at hq
        simp [hq.1, hq.2]
      rw [this] at key
      simp [hq, exceptOk, ← key]

/-! ### Per-transform wrapper lemmas: every transform only changes the
build command by wrapping prefixes around it. -/

theorem wrapProp_environment : WrapProp environment := by
  intro ctx b vary b' h
  unfold environment at h
  cases vary with
  | false => simp at h; exact ⟨[], by simp [← h]⟩
  | true =>
    simp only [Bool.not_true, Bool.false_eq_true, if_false] at h
    obtain ⟨e, he⟩ := modify_env_ok h
    exact ⟨[], by simp [he]⟩

theorem wrapProp_build_path : WrapProp build_path := by
  intro ctx b vary b' h
  unfold build_path at h
  cases vary with
  | true => simp at h; exact ⟨[], by simp [← h]⟩
  | false => simp at h; exact ⟨[], by simp [← h]⟩

theorem wrapProp_user_group : WrapProp user_group := by
  intro ctx b vary b' h
  unfold user_group at h
  cases vary with
  | false => simp at h; exact ⟨[], by simp [← h]⟩
  | true =>
    simp only [Bool.not_true, Bool.false_eq_true, if_false] at h
    split at h
    · simp at h; exact ⟨[], by simp [← h]⟩
    · split at h
      · exact absurd h (by simp)
      · rename_i user0 group heq
        split at h <;> try split at h
        all_goals
          simp only [Except.ok.injEq] at h
          subst h
          exact ⟨[(make_sudo_command user0 group).map shlex_quote], by simp⟩

theorem wrapProp_fileordering : WrapProp fileordering := by
  intro ctx b vary b' h
  unfold fileordering at h
  cases vary with
  | false => simp at h; exact ⟨[], by simp [← h]⟩
  | true =>
    simp only [Bool.not_true, Bool.false_eq_true, if_false, Except.ok.injEq] at h
    exact ⟨[], by simp [← h]⟩

theorem wrapProp_domain_host : WrapProp domain_host := by
  intro ctx b vary b' h
  unfold domain_host at h
  cases vary with
  | false => simp at h; exact ⟨[], by simp [← h]⟩
  | true =>
    simp only [Bool.not_true, Bool.false_eq_true, if_false] at h
    split at h
    · simp only [Except.ok.injEq] at h
      subst h
      exact ⟨[((["sudo", "-E", "nsenter"] ++
        ["--mount=" ++ (b.aux_tree ++ "/ns-mnt"), "--uts=" ++ (b.aux_tree ++ "/ns-uts")] ++
        make_sudo_command ctx.olduser ctx.oldgroup).map shlex_quote)], by simp⟩
    · split at h
      · exact absurd h (by simp)
      · simp only [Except.ok.injEq] at h
        subst h
        exact ⟨[(["unshare", "-r", "--uts", "sh", "-ec",
          unshareHostScript "reprotest-capture-hostname"
            "reprotest-capture-domainname", "-"].map shlex_quote)], by simp⟩

theorem wrapProp_home : WrapProp home := by
  intro ctx b vary b' h
  unfold home at h
  cases vary <;> (simp at h; exact ⟨[], by simp [← h]⟩)

theorem wrapProp_kernel : WrapProp kernel := by
  intro ctx b vary b' h
  unfold kernel at h
  cases vary with
  | false =>
    simp at h
    exact ⟨[["linux64", "--uname-2.6"].map shlex_quote], by simp [← h]⟩
  | true =>
    simp at h
    exact ⟨[["linux32"].map shlex_quote], by simp [← h]⟩

theorem wrapProp_locales : WrapProp locales := by
  intro ctx b vary b' h
  unfold locales at h
  cases vary <;> (simp at h; exact ⟨[], by simp [← h]⟩)

theorem wrapProp_exec_path : WrapProp exec_path := by
  intro ctx b vary b' h
  unfold exec_path at h
  cases vary with
  | false => simp at h; exact ⟨[], by simp [← h]⟩
  | true =>
    simp only [Bool.not_true, Bool.false_eq_true, if_false] at h
    split at h
    · exact absurd h (by simp)
    · simp only [Except.ok.injEq] at h
      subst h
      exact ⟨[], by simp⟩

theorem wrapProp_faketime : WrapProp faketime := by
  intro ctx b vary b' h
  unfold faketime at h
  cases vary with
  | false => simp at h; exact ⟨[], by simp [← h]⟩
  | true =>
    simp only [Bool.not_true, Bool.false_eq_true, if_false] at h
    split at h
    · exact absurd h (by simp)
    · split at h
      · exact absurd h (by simp)
      · rename_i faket heq
        simp only [Except.ok.injEq] at h
        subst h
        exact ⟨[["faketime", faket].map shlex_quote], by simp⟩

theorem wrapProp_timezone : WrapProp timezone := by
  intro ctx b vary b' h
  unfold timezone at h
  cases vary <;> (simp at h; exact ⟨[], by simp [← h]⟩)

theorem wrapProp_umask : WrapProp umask := by
  intro ctx b vary b' h
  unfold umask at h
  cases vary <;> (simp at h; exact ⟨[], by simp [← h]⟩)

/-- Every entry of the registry's action list satisfies the wrapper
property. -/
theorem actions_wrapProp (s : VariationSpec) :
    ∀ a ∈ s.actions, WrapProp a.2.2 := by
  intro a ha
  simp only [VariationSpec.actions, VARIATIONS, List.map_cons, List.map_nil,
    List.mem_cons, List.not_mem_nil, or_false] at ha
  rcases ha with h | h | h | h | h | h | h | h | h | h | h | h <;> subst h
  · exact wrapProp_environment
  · exact wrapProp_build_path
  · exact wrapProp_user_group
  · exact wrapProp_fileordering
  · exact wrapProp_domain_host
  · exact wrapProp_home
  · exact wrapProp_kernel
  · exact wrapProp_locales
  · exact wrapProp_exec_path
  · exact wrapProp_faketime
  · exact wrapProp_timezone
  · exact wrapProp_umask

theorem foldlM_wrapChain :
    ∀ (acts : List (String × Bool × Transform)) (ctx : Ctx) (b b' : Build),
      (∀ a ∈ acts, WrapProp a.2.2) →
      acts.foldlM (fun b a => a.2.2 ctx b a.2.1) b = .ok b' →
      ∃ ws, WrapChain acts ctx b b' ws := by
  intro acts
  induction acts with
  | nil =>
    intro ctx b b' _ h
    simp only [List.foldlM_nil] at h
    cases h
    exact ⟨[], rfl, rfl⟩
  | cons a acts ih =>
    intro ctx b b' hall h
    rw [List.foldlM_cons] at h
    cases hi : a.2.2 ctx b a.2.1 with
    | error e => rw [hi] at h; exact absurd h (by simp [Bind.bind, Except.bind])
    | ok bi =>
      rw [hi] at h
      simp only [Bind.bind, Except.bind] at h
      obtain ⟨wi, hwi⟩ := hall a (by simp) ctx b a.2.1 bi hi
      obtain ⟨rest, hrest⟩ := ih ctx bi b' (fun x hx => hall x (by simp [hx])) h
      exact ⟨wi :: rest, bi, wi, rest, hi, hwi, hrest, rfl⟩

theorem wrapChain_build_command :
    ∀ (acts : List (String × Bool × Transform)) (ctx : Ctx) (b b' : Build)
      (ws : List (List (List String))),
      WrapChain acts ctx b b' ws →
      b'.build_command = wrapsFold ws.flatten b.build_command := by
  intro acts
  induction acts with
  | nil =>
    intro ctx b b' ws h
    obtain ⟨hb, hw⟩ := h
    subst hb; subst hw
    rfl
  | cons a acts ih =>
    intro ctx b b' ws h
    obtain ⟨bi, wi, rest, _, hcmd, hchain, hws⟩ := h
    subst hws
    rw [List.flatten_cons, wrapsFold_append, ← hcmd]
    exact ih ctx bi b' rest hchain

/-! ### Claim theorems -/

/-- C1, counterexample.  The claim asserts that the emitted script's
overall exit code always equals the build command's exit code, not
cleanup's.  For the build `bCleanupFails` (non-empty cleanup list, build
command exiting 0, cleanup command exiting 7), the script emitted by
`to_script false` exits 7 — the cleanup's saved status — while the build
command exited 0. -/
theorem C1_success_exit_counterexample :
    bCleanupFails.cleanup ≠ [] ∧
    andListExit fOracle (bCleanupFails.setup ++ [bCleanupFails.build_command]) = 0 ∧
    (runScript fOracle (bCleanupFails.to_script false)).exit = 7 ∧
    fOracle bCleanupFails.build_command = 0 := by
  refine ⟨by decide, rfl, rfl, rfl⟩

/-- C1, amended.  For every build with a non-empty cleanup list: after a
successful `run_build` (setup and build command), the cleanup commands are
executed exactly once and the script's exit code is the cleanup function's
saved status (hence the build command's exit code 0 whenever cleanup
succeeds); after a failed setup or build, the cleanup commands are executed
exactly once iff `no_clean_on_error` is false, and the script's exit code
is `run_build`'s exit code — never cleanup's. -/
theorem C1_to_script_cleanup_contract (b : Build) (f : Command → Nat)
    (no_clean_on_error : Bool) (h : b.cleanup ≠ []) :
    (andListExit f (b.setup ++ [b.build_command]) = 0 →
      runScript f (b.to_script no_clean_on_error) =
        ⟨cleanupExit f b.cleanup, 1⟩) ∧
    (andListExit f (b.setup ++ [b.build_command]) ≠ 0 →
      runScript f (b.to_script no_clean_on_error) =
        ⟨andListExit f (b.setup ++ [b.build_command]),
         if no_clean_on_error then 0 else 1⟩) := by
  have hne : b.cleanup.isEmpty = false := by
    cases hcc : b.cleanup with
    | nil => exact absurd hcc h
    | cons c cl => rfl
  constructor
  · intro h0
    simp [Build.to_script, hne, runScript, h0]
  · intro h0
    simp [Build.to_script, hne, runScript, h0]
    cases no_clean_on_error <;> simp

/-- C1, witness: the amended contract evaluated at `bCleanupFails` (build
succeeds, cleanup exits 7: the script runs cleanup once and exits 7) and at
`bBuildFails` with `no_clean_on_error = true` (build exits 3: cleanup is
skipped and the script exits 3). -/
theorem C1_to_script_cleanup_contract_witness :
    runScript fOracle (bCleanupFails.to_script false) = ⟨7, 1⟩ ∧
    runScript fOracle (bBuildFails.to_script true) = ⟨3, 0⟩ :=
  ⟨(C1_to_script_cleanup_contract bCleanupFails fOracle false (by decide)).1 (by decide),
   (C1_to_script_cleanup_contract bBuildFails fOracle true (by decide)).2 (by decide)⟩

/-- C3: `sanitize_globs s` succeeds exactly when the claim-side scan
accepts `s` — i.e. it raises an error exactly when `s` contains, outside
any quote and not backslash-escaped, a character of the special set
(newline, tab, or one of the POSIX specials), or an unescaped `$` or
backtick inside a double-quoted span, or ends inside an unclosed quote or
backslash escape; every other input is accepted. -/
theorem C3_sanitize_globs_characterization :
    ∀ (s : String) (forcerel : Bool),
      exceptOk (sanitize_globs s forcerel) = !(claimRejects .no false s.data) :=
  fun s forcerel => sanitize_globs_accepts_iff s forcerel

/-- C4, counterexample.  The claim asserts the sanitizer rejects the
artifact pattern `/etc/*`; in fact `sanitize_globs` accepts it (none of its
characters is in the special set) and returns the forcerel-prefixed
pattern. -/
theorem C4_etc_glob_accepted_counterexample :
    sanitize_globs_join "/etc/*" true = .ok ".//etc/*" := rfl

/-- C4, amended.  The sanitizer *accepts* `/etc/*`, yielding the single
word `.//etc/*` (the `./` forcerel prefix); and sanitizing `a b` with
forcerel yields exactly the two words `./a` and `./b`. -/
theorem C4_sanitize_boundary_amended :
    sanitize_globs "/etc/*" true = .ok [".//etc/*"] ∧
    sanitize_globs "a b" true = .ok ["./a", "./b"] ∧
    sanitize_globs_join "a b" true = .ok "./a ./b" :=
  ⟨rfl, rfl, rfl⟩

/-- C8: `BuildContext.run_build` renders the script with `_.to_script()` —
zero arguments for the required parameter `no_clean_on_error` — so for
every build the rendering call fails with the missing-argument `TypeError`,
and no script (hence no forwarded `no_clean_on_error` setting) is ever
produced. -/
theorem C8_run_build_missing_argument :
    ∀ build : Build,
      run_build_render build = .error
        "TypeError: to_script() missing 1 required positional argument: no_clean_on_error" ∧
      ∀ s : Script, run_build_render build ≠ .ok s := by
  intro build
  refine ⟨rfl, ?_⟩
  intro s h
  simp [run_build_render, to_script_call] at h

/-- C2: the variation registry lists exactly the twelve transform names in
the fixed order; `plan_variations` applies the twelve transforms exactly
once each, in that order, passing `vary = true` exactly for the names
present in the spec (the empty spec — the control — yields `vary = false`
for every name); and on success the build command of the planned build is
the original build command wrapped by per-entry wrapper blocks, earlier
entries innermost and later entries outermost (`WrapChain`). -/
theorem C2_plan_variations_registry :
    (VARIATIONS.map Prod.fst =
      ["environment", "build_path", "user_group", "fileordering", "domain_host",
       "home", "kernel", "locales", "exec_path", "time", "timezone", "umask"]) ∧
    (∀ (ctx : Ctx) (b : Build), plan_variations ctx b =
      environment ctx b (ctx.spec.contains "environment") >>= (fun b1 =>
      build_path ctx b1 (ctx.spec.contains "build_path") >>= (fun b2 =>
      user_group ctx b2 (ctx.spec.contains "user_group") >>= (fun b3 =>
      fileordering ctx b3 (ctx.spec.contains "fileordering") >>= (fun b4 =>
      domain_host ctx b4 (ctx.spec.contains "domain_host") >>= (fun b5 =>
      home ctx b5 (ctx.spec.contains "home") >>= (fun b6 =>
      kernel ctx b6 (ctx.spec.contains "kernel") >>= (fun b7 =>
      locales ctx b7 (ctx.spec.contains "locales") >>= (fun b8 =>
      exec_path ctx b8 (ctx.spec.contains "exec_path") >>= (fun b9 =>
      faketime ctx b9 (ctx.spec.contains "time") >>= (fun b10 =>
      timezone ctx b10 (ctx.spec.contains "timezone") >>= (fun b11 =>
      umask ctx b11 (ctx.spec.contains "umask")))))))))))))  ∧
    (∀ k, VariationSpec.empty.contains k = false) ∧
    (∀ (ctx : Ctx) (b b' : Build), plan_variations ctx b = .ok b' →
      ∃ ws, WrapChain ctx.spec.actions ctx b b' ws ∧
        b'.build_command = wrapsFold ws.flatten b.build_command) := by
  refine ⟨rfl, ?_, fun k => rfl, ?_⟩
  · intro ctx b
    simp only [plan_variations, VariationSpec.actions, VARIATIONS, List.map_cons,
      List.map_nil, List.foldlM_cons, List.foldlM_nil, bind_pure]
  · intro ctx b b' h
    unfold plan_variations at h
    obtain ⟨ws, hchain⟩ :=
      foldlM_wrapChain ctx.spec.actions ctx b b' (actions_wrapProp ctx.spec) h
    exact ⟨ws, hchain,
      wrapChain_build_command ctx.spec.actions ctx b b' ws hchain⟩

/-- C2, witness: planning `bTool` over `ctxC6` succeeds with `planC2` and
the wrapper-chain decomposition is exhibited for it. -/
theorem C2_plan_variations_registry_witness :
    plan_variations ctxC6 bTool = .ok planC2 ∧
    ∃ ws, WrapChain ctxC6.spec.actions ctxC6 bTool planC2 ws ∧
      planC2.build_command = wrapsFold ws.flatten bTool.build_command :=
  ⟨rfl, C2_plan_variations_registry.2.2.2 ctxC6 bTool planC2 rfl⟩

theorem mv_roundtrip (dirs : List String) (s t : String) (h : t ∉ dirs) :
    (dirs.map (fun q => if q = s then t else q)).map
      (fun q => if q = t then s else q) = dirs := by
  induction dirs with
  | nil => rfl
  | cons d ds ih =>
    simp only [List.mem_cons, not_or] at h
    obtain ⟨hd, hds⟩ := h
    have hd' : d ≠ t := fun hh => hd hh.symm
    by_cases hs : d = s
    · simp [hs, ih hds]
    · simp [hs, hd', ih hds]

/-- C5: cleanup completeness of the planner's builds.  (a) `from_command`
pairs its aux-tree `mkdir` with an `rm -rf` prepended to cleanup; (b)
`move_tree` appends `mv source target` to setup and prepends the inverse
`mv target source` to cleanup; (c) `fileordering` appends exactly the
move/mkdir/disorderfs-mount setup commands and prepends their inverses in
reverse (LIFO) order; (d) `domain_host` with sudo appends its pin-file and
bind-mount setup and prepends the matching umounts in reverse order; and
(e) running each setup block followed by its cleanup block over the
abstract file-system state restores the pre-setup state (for the mount
namespace pins, the mounts component). -/
theorem C5_cleanup_completeness :
    (∀ (cmd : String) (env : List (String × String)) (tree : String),
      (Build.from_command cmd env tree).setup =
        [.make (["mkdir", "-p",
          (Build.from_command cmd env tree).aux_tree].map shlex_quote)] ∧
      (Build.from_command cmd env tree).cleanup =
        [.make (["rm", "-rf",
          (Build.from_command cmd env tree).aux_tree].map shlex_quote)]) ∧
    (∀ (b : Build) (s t : String) (f : Bool),
      (b.move_tree s t f).setup
        = b.setup ++ [.make (["mv", s, t].map shlex_quote)] ∧
      (b.move_tree s t f).cleanup
        = .make (["mv", t, s].map shlex_quote) :: b.cleanup) ∧
    (∀ (ctx : Ctx) (b b' : Build), fileordering ctx b true = .ok b' →
      b'.setup = b.setup ++ foSetupDelta ctx b ∧
      b'.cleanup = foCleanupDelta b ++ b.cleanup) ∧
    (∀ (ctx : Ctx) (b b' : Build), ctx.spec.domainHostUseSudo = true →
      domain_host ctx b true = .ok b' →
      b'.setup = b.setup ++ dhSetupDelta b ∧
      b'.cleanup = dhCleanupDelta b ++ b.cleanup) ∧
    (∀ (st : FsState) (aux : String),
      runCmds [.make ["mkdir", "-p", aux], .make ["rm", "-rf", aux]] st = st) ∧
    (∀ (st : FsState) (s t : String), t ∉ st.dirs →
      runCmds [.make ["mv", s, t], .make ["mv", t, s]] st = st) ∧
    (∀ (st : FsState) (tr old bin flag : String), old ∉ st.dirs →
      runCmds [.make ["mv", tr, old], .make ["mkdir", "-p", tr],
        .make ["disorderfs", flag, "--shuffle-dirents=yes", old, tr],
        .make ["export", bin], .make ["fusermount", "-u", tr],
        .make ["rmdir", tr], .make ["mv", old, tr]] st = st) ∧
    (∀ (st : FsState) (mnt uts a1 a2 hn dn hsc hp : String),
      pinArgs [a1, a2, "true"] = [mnt, uts] →
      (runCmds [.make ["touch", mnt, uts],
        .make ["sudo", "mount", "-B", mnt, mnt],
        .make ["sudo", "mount", "--make-private", mnt],
        .make ["sudo", "unshare", a1, a2, "true"],
        .make ["sudo", "nsenter", a1, a2, "hostname", hn],
        .make ["sudo", "nsenter", a1, a2, "domainname", dn],
        .make ["sh", "-ec", hsc],
        .make ["sudo", "nsenter", a1, a2, "mount", "-B", hp, "/etc/hosts"],
        .make ["sudo", "umount", uts],
        .make ["sudo", "umount", mnt],
        .make ["sudo", "umount", mnt]] st).mounts = st.mounts) := by
  refine ⟨fun cmd env tree => ⟨rfl, rfl⟩,
    fun b s t f => ⟨move_tree_setup b s t f, move_tree_cleanup b s t f⟩,
    ?_, ?_, ?_, ?_, ?_, ?_⟩
  · intro ctx b b' h
    unfold fileordering at h
    simp only [Bool.not_true, Bool.false_eq_true, if_false, Except.ok.injEq] at h
    subst h
    constructor
    · simp [foSetupDelta, foOldTree, List.append_assoc]
    · simp [foCleanupDelta, foOldTree, foBinPath]
  · intro ctx b b' hsudo h
    unfold domain_host at h
    simp only [Bool.not_true, Bool.false_eq_true, if_false] at h
    split at h
    · simp only [Except.ok.injEq] at h
      subst h
      constructor
      · simp [dhSetupDelta, List.append_assoc]
      · simp [dhCleanupDelta]
    · rename_i hcond
      exact absurd hsudo hcond
  · intro st aux
    obtain ⟨D, M⟩ := st
    simp [runCmds, cmdSem, cmdSemW]
  · intro st s t h
    obtain ⟨D, M⟩ := st
    simp only at h
    simp [runCmds, cmdSem, cmdSemW, mv_roundtrip D s t h]
  · intro st tr old bin flag h
    obtain ⟨D, M⟩ := st
    simp only at h
    simp [runCmds, cmdSem, cmdSemW, List.getLast?, mv_roundtrip D tr old h]
  · intro st mnt uts a1 a2 hn dn hsc hp hpin
    obtain ⟨D, M⟩ := st
    simp [runCmds, cmdSem, cmdSemW, sudoSem, hpin]

set_option maxRecDepth 8192 in
set_option maxHeartbeats 1000000 in
/-- C5, witness: the pairing evaluated on concrete builds — `from_command`
on a concrete tree, `fileordering` and sudo `domain_host` on `bTool` — and
the state restorations evaluated on a state holding just the source tree,
using the very setup/cleanup deltas the transforms emitted. -/
theorem C5_cleanup_completeness_witness :
    ((Build.from_command "make" [] "/tmp/build-x/").setup =
        [.make ["mkdir", "-p", "/tmp/build-x-aux"]] ∧
     (Build.from_command "make" [] "/tmp/build-x/").cleanup =
        [.make ["rm", "-rf", "/tmp/build-x-aux"]]) ∧
    (fileordering ctxC6 bTool true = .ok foRes ∧
     foRes.setup = bTool.setup ++ foSetupDelta ctxC6 bTool ∧
     foRes.cleanup = foCleanupDelta bTool ++ bTool.cleanup) ∧
    (domain_host ctxDH bTool true = .ok dhRes ∧
     dhRes.setup = bTool.setup ++ dhSetupDelta bTool ∧
     dhRes.cleanup = dhCleanupDelta bTool ++ bTool.cleanup) ∧
    runCmds [.make ["mv", "/tmp/build-x/", "/tmp/old/"],
      .make ["mv", "/tmp/old/", "/tmp/build-x/"]] stTree = stTree ∧
    runCmds (foSetupDelta ctxC6 bTool ++ foCleanupDelta bTool) stTree = stTree ∧
    (runCmds (dhSetupDelta bTool ++ dhCleanupDelta bTool) stTree).mounts
      = stTree.mounts := by
  refine ⟨C5_cleanup_completeness.1 "make" [] "/tmp/build-x/",
    ⟨rfl, C5_cleanup_completeness.2.2.1 ctxC6 bTool foRes rfl⟩,
    ⟨rfl, C5_cleanup_completeness.2.2.2.1 ctxDH bTool dhRes rfl rfl⟩,
    C5_cleanup_completeness.2.2.2.2.2.1 stTree "/tmp/build-x/" "/tmp/old/"
      (by decide),
    C5_cleanup_completeness.2.2.2.2.2.2.1 stTree "/tmp/build-x/"
      "/tmp/build-x-before-disorderfs/" "PATH=\x22/tmp/bin:$PATH\x22" "-q"
      (by decide),
    C5_cleanup_completeness.2.2.2.2.2.2.2 stTree "/tmp/build-x-aux/ns-mnt"
      "/tmp/build-x-aux/ns-uts" "--mount=/tmp/build-x-aux/ns-mnt"
      "--uts=/tmp/build-x-aux/ns-uts" "reprotest-capture-hostname"
      "reprotest-capture-domainname"
      (hostsScript "/tmp/build-x-aux" "reprotest-capture-hostname")
      "/tmp/build-x-aux/hosts" (by decide)⟩

/-- C6, counterexample.  The claim asserts that with `disorderfs` absent
from PATH the `fileordering` transform applied with `vary=true` returns the
Build unchanged.  In fact the transforms never consult tool presence:
with every tool missing (`which` constantly false, so `tool_missing`
reports `disorderfs`), `fileordering` still extends the setup phase of
`bTool` from 0 to 3 commands. -/
theorem C6_missing_tool_noop_counterexample :
    tool_missing (fun _ => false) "fileordering" = ["disorderfs"] ∧
    (fileordering ctxC6 bTool true).map (fun b => b.setup.length) = .ok 3 ∧
    bTool.setup.length = 0 :=
  ⟨rfl, rfl, rfl⟩

/-- C6, amended.  A variation naming a missing tool (`disorderfs` for
fileordering, `faketime` for time, `sudo` for user_group) only triggers a
warning in `run()`; planning proceeds, but the transform is *not* demoted
to a no-op: applied with `vary=true` it still modifies the Build
(fileordering adds three setup commands; time and user_group — with a
non-empty `available` — wrap the build command), independently of any
`shutil.which` result. -/
theorem C6_missing_tool_only_warns_amended :
    (tool_missing (fun _ => false) "fileordering" = ["disorderfs"] ∧
     tool_missing (fun _ => false) "time" = ["faketime"] ∧
     tool_missing (fun _ => false) "user_group" = ["sudo"]) ∧
    (∀ (ctx : Ctx) (b b' : Build), fileordering ctx b true = .ok b' →
      b'.setup.length = b.setup.length + 3) ∧
    (∀ (ctx : Ctx) (b b' : Build), faketime ctx b true = .ok b' →
      b'.build_command.depth = b.build_command.depth + 1) ∧
    (∀ (ctx : Ctx) (b b' : Build), ctx.spec.userGroupAvailable ≠ [] →
      user_group ctx b true = .ok b' →
      b'.build_command.depth = b.build_command.depth + 1) := by
  refine ⟨⟨rfl, rfl, rfl⟩, ?_, ?_, ?_⟩
  · intro ctx b b' h
    unfold fileordering at h
    simp only [Bool.not_true, Bool.false_eq_true, if_false, Except.ok.injEq] at h
    subst h
    simp
  · intro ctx b b' h
    unfold faketime at h
    simp only [Bool.not_true, Bool.false_eq_true, if_false] at h
    split at h
    · exact absurd h (by simp)
    · split at h
      · exact absurd h (by simp)
      · simp only [Except.ok.injEq] at h
        subst h
        simp [Command.depth]
  · intro ctx b b' hav h
    unfold user_group at h
    simp only [Bool.not_true, Bool.false_eq_true, if_false] at h
    rw [if_neg hav] at h
    split at h
    · exact absurd h (by simp)
    · split at h <;> try split at h
      all_goals
        simp only [Except.ok.injEq] at h
        subst h
        simp [Command.depth]

/-- C6, witness: the amended statement evaluated on `bTool` over `ctxC6`:
`fileordering` grows setup from 0 to 3 commands, and `time` and
`user_group` each wrap the build command once. -/
theorem C6_missing_tool_only_warns_amended_witness :
    foRes.setup.length = bTool.setup.length + 3 ∧
    ftRes.build_command.depth = bTool.build_command.depth + 1 ∧
    ugRes.build_command.depth = bTool.build_command.depth + 1 :=
  ⟨C6_missing_tool_only_warns_amended.2.1 ctxC6 bTool foRes rfl,
   C6_missing_tool_only_warns_amended.2.2.1 ctxC6 bTool ftRes rfl,
   C6_missing_tool_only_warns_amended.2.2.2 ctxC6 bTool ugRes (by decide) rfl⟩

theorem auto_walk_eq (repro : Nat → VariationSpec → Bool) (x1 : VariationSpec) :
    ∀ (names : List String) (i : Nat) (cur : VariationSpec),
      (∀ v ∈ names, (x1 v).isSome = true) →
      ∃ fin, auto_walk repro x1 i cur names =
        .ok (fin, bisectWalk repro x1 i cur names, i + names.length) := by
  intro names
  induction names with
  | nil =>
    intro i cur _
    exact ⟨cur, by simp [auto_walk, bisectWalk]⟩
  | cons v vs ih =>
    intro i cur h
    have hv : (x1 v).isSome = true := h v (by simp)
    obtain ⟨c, hc⟩ := Option.isSome_iff_exists.mp hv
    have hget : x1.get v = .ok c := by simp [VariationSpec.get, hc]
    have hrest : ∀ w ∈ vs, (x1 w).isSome = true := fun w hw => h w (by simp [hw])
    by_cases hr : repro i (cur.set v c)
    · obtain ⟨fin, hwalk⟩ := ih (i + 1) (cur.set v c) hrest
      refine ⟨fin, ?_⟩
      simp only [auto_walk, hget, Bind.bind, Except.bind, hr, if_pos, hwalk,
        bisectWalk, hc, Option.getD_some]
      simp [List.length_cons]
      omega
    · obtain ⟨fin, hwalk⟩ := ih (i + 1) cur hrest
      refine ⟨fin, ?_⟩
      simp only [auto_walk, hget, Bind.bind, Except.bind, hr, if_neg, hwalk,
        bisectWalk, hc, Option.getD_some]
      simp [List.length_cons]
      omega

theorem bisectWalk_all_true (repro : Nat → VariationSpec → Bool)
    (x1 : VariationSpec) :
    ∀ (names : List String) (i : Nat) (cur : VariationSpec),
      (∀ j s, i ≤ j → repro j s = true) →
      bisectWalk repro x1 i cur names = [] := by
  intro names
  induction names with
  | nil => intro i cur _; rfl
  | cons v vs ih =>
    intro i cur h
    have hr : repro i (cur.set v ((x1 v).getD (.flag false))) = true :=
      h i _ (Nat.le_refl i)
    simp only [bisectWalk, hr, if_pos]
    exact ih (i + 1) _ (fun j s hj => h j s (Nat.le_of_succ_le hj))

/-- C7: `check_auto` first probes the control spec (failure when it is not
reproducible, at 2 builds), then the full spec (success when it is
reproducible, at 3 builds); otherwise it walks the shuffled variation
names, maintaining a current spec initialised to the control and, for each
name, probing the candidate that takes that name's configuration from the
full spec — committing it when reproducible and otherwise recording the
name as an unreproducibility witness (`bisectWalk` is that walk stated in
the claim's words); it finally reports the witness set with a failure
result, after `k + 3` builds in total for `k` variation names. -/
theorem C7_check_auto_algorithm (repro : Nat → VariationSpec → Bool)
    (x0 x1 : VariationSpec) (names : List String)
    (hnames : ∀ v ∈ names, (x1 v).isSome = true) :
    check_auto repro x0 x1 names =
      if repro 0 x0 = false then .ok ⟨false, [], 2⟩
      else if repro 1 x1 = true then .ok ⟨true, [], 3⟩
      else .ok ⟨false, bisectWalk repro x1 2 x0 names, names.length + 3⟩ := by
  unfold check_auto
  by_cases h0 : repro 0 x0
  · by_cases h1 : repro 1 x1
    · simp [h0, h1]
    · obtain ⟨fin, hw⟩ := auto_walk_eq repro x1 names 2 x0 hnames
      simp only [h0, h1, Bool.not_true, Bool.false_eq_true, if_false,
        Bool.true_eq_false, Bind.bind, Except.bind, hw]
      have : 1 + (2 + names.length) = names.length + 3 := by omega
      simp [this]
  · simp [h0]

/-- C7, witness: the algorithm evaluated with the control spec empty, the
full default spec, the registry's name list, and an oracle that answers
"reproducible" on every call except the full-spec probe: the result is
failure with an empty witness set after 12 + 3 = 15 builds. -/
theorem C7_check_auto_algorithm_witness :
    check_auto (fun i _ => decide (i ≠ 1)) VariationSpec.empty
      VariationSpec.default allVariationNames = .ok ⟨false, [], 15⟩ :=
  (C7_check_auto_algorithm (fun i _ => decide (i ≠ 1)) VariationSpec.empty
    VariationSpec.default allVariationNames (by decide)).trans rfl

/-- C9: whenever the control probe is reproducible and the full-variation
probe is not, `check_auto` returns `false` after probing each of the `k`
walked variation names exactly once (`k + 3` builds in total) — and when
every per-name probe is reproducible the reported witness set is empty
while the overall result is still failure. -/
theorem C9_check_auto_false_empty_witnesses (repro : Nat → VariationSpec → Bool)
    (x0 x1 : VariationSpec) (names : List String)
    (h0 : repro 0 x0 = true) (h1 : repro 1 x1 = false)
    (hnames : ∀ v ∈ names, (x1 v).isSome = true) :
    ∃ wit, check_auto repro x0 x1 names = .ok ⟨false, wit, names.length + 3⟩ ∧
      ((∀ i s, 2 ≤ i → repro i s = true) → wit = []) := by
  refine ⟨bisectWalk repro x1 2 x0 names, ?_, ?_⟩
  · obtain ⟨fin, hw⟩ := auto_walk_eq repro x1 names 2 x0 hnames
    unfold check_auto
    simp only [h0, h1, Bool.not_true, Bool.false_eq_true, if_false,
      Bool.true_eq_false, Bind.bind, Except.bind, hw]
    have : 1 + (2 + names.length) = names.length + 3 := by omega
    simp [this]
  · intro hall
    exact bisectWalk_all_true repro x1 names 2 x0 (fun j s hj => hall j s hj)

/-- C9, witness: with the oracle that answers "reproducible" on every call
except the full-spec probe, `check_auto` over the registry's 12 names
returns failure with an empty witness set after 15 builds. -/
theorem C9_check_auto_false_empty_witnesses_witness :
    ∃ wit, check_auto (fun i _ => decide (i ≠ 1)) VariationSpec.empty
      VariationSpec.default allVariationNames =
        .ok ⟨false, wit, allVariationNames.length + 3⟩ ∧ wit = [] := by
  obtain ⟨wit, hw, hempty⟩ := C9_check_auto_false_empty_witnesses
    (fun i _ => decide (i ≠ 1)) VariationSpec.empty VariationSpec.default
    allVariationNames (by decide) (by decide) (by decide)
  exact ⟨wit, hw, hempty (by intro i s h; simp; omega)⟩

theorem sde_walk (mts : List Int) :
    ∀ (l acc : List String),
      exceptOk (l.foldlM (fun acc a =>
        if a = "SOURCE_DATE_EPOCH" then
          Except.ok (acc ++ ["@" ++ toString ((mts.max?).getD 0)])
        else
          Except.error ("unrecognized auto_faketime: " ++ a)) acc)
      = !(l.any (fun a => a ≠ "SOURCE_DATE_EPOCH")) := by
  intro l
  induction l with
  | nil => intro acc; rfl
  | cons a l ih =>
    intro acc
    by_cases h : a = "SOURCE_DATE_EPOCH"
    · simp only [List.foldlM_cons, h, if_pos rfl]
      simpa [h, Bind.bind, Except.bind] using ih _
    · simp [List.foldlM_cons, h, exceptOk, Bind.bind, Except.bind]

theorem adf_error_iff (tv : TimeVariation) (mts : List Int) :
    exceptOk (tv.apply_dynamic_defaults mts)
      = !(tv.auto_faketimes.any (fun a => a ≠ "SOURCE_DATE_EPOCH")) := by
  have hw := sde_walk mts tv.auto_faketimes []
  unfold TimeVariation.apply_dynamic_defaults
  cases hf : tv.auto_faketimes.foldlM (fun acc a =>
      if a = "SOURCE_DATE_EPOCH" then
        Except.ok (acc ++ ["@" ++ toString ((mts.max?).getD 0)])
      else
        Except.error ("unrecognized auto_faketime: " ++ a)) [] with
  | error e => rw [hf] at hw; simpa [exceptOk] using hw
  | ok nf => rw [hf] at hw; simpa [exceptOk] using hw

/-- C10: with no files at all under the source root,
`TimeVariation.apply_dynamic_defaults` resolves each `SOURCE_DATE_EPOCH`
token to the faketime entry `@0` (the maximum over the empty mtime list
defaults to 0) instead of failing; it raises an error exactly when some
`auto_faketimes` token is different from `SOURCE_DATE_EPOCH`. -/
theorem C10_source_date_epoch_empty_tree :
    (∀ fts : List String,
      TimeVariation.apply_dynamic_defaults ⟨fts, ["SOURCE_DATE_EPOCH"]⟩ [] =
        .ok ⟨fts ++ ["@0"], []⟩) ∧
    (∀ (tv : TimeVariation) (mts : List Int),
      (∃ e, tv.apply_dynamic_defaults mts = .error e) ↔
        ∃ a ∈ tv.auto_faketimes, a ≠ "SOURCE_DATE_EPOCH") := by
  constructor
  · intro fts; rfl
  · intro tv mts
    have hb := adf_error_iff tv mts
    constructor
    · intro he
      obtain ⟨e, he⟩ := he
      rw [he] at hb
      simp only [exceptOk] at hb
      have hany : tv.auto_faketimes.any (fun a => a ≠ "SOURCE_DATE_EPOCH") = true := by
        cases hx : tv.auto_faketimes.any (fun a => a ≠ "SOURCE_DATE_EPOCH") with
        | true => rfl
        | false => rw [hx] at hb; simp at hb
      simpa using hany
    · intro hex
      have hany : tv.auto_faketimes.any (fun a => a ≠ "SOURCE_DATE_EPOCH") = true := by
        simpa using hex
      rw [hany] at hb
      cases hres : tv.apply_dynamic_defaults mts with
      | error e => exact ⟨e, rfl⟩
      | ok v => rw [hres] at hb; simp [exceptOk] at hb

end Reprotest
